import Mathlib

/-!
A shallow embedding of the Dual N-Back trial engine found in the single application component of the repository, together with theorems checking the claims of the specification about it.

The source keeps its state in React useState cells and drives the engine with
three kinds of callbacks: the recurring tick of useInterval, the per-trial
miss timeout scheduled inside the tick, and the user press handler.  Here the
state cells become the fields of EngineState, each handler becomes a function
on EngineState, and the two timers become events that carry exactly the data
the corresponding source closures capture.  In particular the miss timeout of
the source closes over the pre-tick values of stream, n, allowPressPos and
allowPressSnd (the setAllowPress updates of the tick itself are not visible to that
closure), so the capture is recorded in a MissCapture value at tick time and
consumed when the timer fires.  Random stimulus generation is modelled by
passing the drawn stimulus to the tick event.
-/

namespace DualNBack

/-- A stimulus as produced by generateNextStimulus of the source: a grid
position and a letter. -/
structure Stim where
  pos : Nat
  letter : String
deriving DecidableEq

/-- The letter alphabet of the source. -/
def LETTER_POOL : List String := ["A", "E", "I", "O", "U", "B", "K", "M", "P", "S", "T"]

/-- Grid side length of the source. -/
def GRID_SIZE : Nat := 3

/-- Default letter used only as a getD fallback. -/
def defaultLetter : String := "A"

/-- randInt of the source draws the floor of random() times m; the random draw
is made explicit as the input r, reduced into range. -/
def randInt (m r : Nat) : Nat := r % m

/-- generateNextStimulus of the source, with the two random draws explicit. -/
def generateNextStimulus (r1 r2 : Nat) : Stim :=
  ⟨randInt (GRID_SIZE * GRID_SIZE) r1,
    LETTER_POOL.getD (randInt LETTER_POOL.length r2) defaultLetter⟩

/-- The six counters of the Tally record of the source. -/
structure Tally where
  posHits : Nat
  posMisses : Nat
  posFalse : Nat
  sndHits : Nat
  sndMisses : Nat
  sndFalse : Nat
deriving DecidableEq

/-- emptyTally of the source. -/
def emptyTally : Tally := ⟨0, 0, 0, 0, 0, 0⟩

/-- The data captured by the miss setTimeout closure of the source at tick time:
indexForMiss equals the pre-append stream length, next is the stimulus of the
trial, stream and n are the pre-tick values, and the two allow flags are the
pre-tick flag values (the setAllowPress calls of the tick are not visible to the
closure). -/
structure MissCapture where
  indexForMiss : Nat
  next : Stim
  stream : List Stim
  n : Nat
  allowPressPos : Bool
  allowPressSnd : Bool
deriving DecidableEq

/-- The useState cells of the component, plus the two outstanding timers.
pendingMiss holds the data captured by an un-fired miss timeout, and
pendingReset holds the nextN argument of an un-fired block reset timeout. -/
structure EngineState where
  running : Bool
  n : Nat
  speedMs : Nat
  blockLen : Nat
  trialIdx : Nat
  stream : List Stim
  current : Option Stim
  tally : Tally
  allowPressPos : Bool
  allowPressSnd : Bool
  audioEnabled : Bool
  useSpeech : Bool
  voice : Option String
  lang : String
  pendingMiss : Option MissCapture
  pendingReset : Option Nat
deriving DecidableEq

/-- The initial values of the useState cells. -/
def initState : EngineState where
  running := false
  n := 2
  speedMs := 2500
  blockLen := 20
  trialIdx := 0
  stream := []
  current := none
  tally := emptyTally
  allowPressPos := true
  allowPressSnd := true
  audioEnabled := false
  useSpeech := false
  voice := none
  lang := "en-US"
  pendingMiss := none
  pendingReset := none

/-- The two response channels. -/
inductive Channel where
  | pos
  | snd
deriving DecidableEq

/-- JavaScript style list indexing with a possibly negative index. -/
def getI (l : List Stim) (i : Int) : Option Stim :=
  if 0 ≤ i then l[i.toNat]? else none

/-- The shape shared by the four match computations of the source:
prevIdx greater or equal zero, and the field of stream at prevIdx (optional
chaining) compares equal to the corresponding field of the current
stimulus. -/
def matchAt (eqf : Stim → Stim → Bool) (stream : List Stim) (prevIdx : Int) (cur : Stim) : Bool :=
  decide (0 ≤ prevIdx) &&
    (match getI stream prevIdx with
      | some s => eqf s cur
      | none => false)

/-- Position field comparison, stream entry against current stimulus. -/
def posEqF : Stim → Stim → Bool := fun s c => s.pos == c.pos

/-- Letter field comparison, stream entry against current stimulus. -/
def sndEqF : Stim → Stim → Bool := fun s c => s.letter == c.letter

/-- posMatch of the source at a given previous index. -/
def posMatchAt : List Stim → Int → Stim → Bool := matchAt posEqF

/-- sndMatch of the source at a given previous index. -/
def sndMatchAt : List Stim → Int → Stim → Bool := matchAt sndEqF

/-- One channel of the n-back match detector: the stimulus at index i of the
history compared against the one n steps earlier, false when i - n is
negative or out of range. -/
def detect (eqf : Stim → Stim → Bool) (history : List Stim) (i : Int) (n : Nat) : Bool :=
  match getI history i with
  | some cur => matchAt eqf history (i - (n : Int)) cur
  | none => false

/-- The match detector of the specification, assembled from the two
boolean match computations of the source: position match and letter match of trial i
against trial i - n. -/
def isMatch (history : List Stim) (i : Int) (n : Nat) : Bool × Bool :=
  (detect posEqF history i n, detect sndEqF history i n)

/-- resetBlock of the source: clears trial index, stream, current stimulus,
tally and both allow flags; when a numeric nextN is supplied it also sets n
to the maximum of 1 and nextN. -/
def resetBlockE (nextN : Option Nat) (s : EngineState) : EngineState :=
  let s1 := { s with trialIdx := 0, stream := [], current := none, tally := emptyTally,
                     allowPressPos := true, allowPressSnd := true }
  match nextN with
  | some v => { s1 with n := Nat.max 1 v }
  | none => s1

/-- start of the source: unlock audio, enable audio, reset the block, run. -/
def startE (s : EngineState) : EngineState :=
  { resetBlockE none s with audioEnabled := true, running := true }

/-- stop of the source: stop running and clear the current stimulus.  The
recurring interval is torn down by useInterval when running flips to false;
note that no pending timeout is cleared. -/
def stopE (s : EngineState) : EngineState :=
  { s with running := false, current := none }

/-- handlePress of the source. -/
def handlePress (kind : Channel) (s : EngineState) : EngineState :=
  match s.current with
  | none => s
  | some cur =>
    let idx : Int := (s.stream.length : Int) - 1
    let prevIdx : Int := idx - (s.n : Int)
    let posMatch := posMatchAt s.stream prevIdx cur
    let sndMatch := sndMatchAt s.stream prevIdx cur
    match kind with
    | Channel.pos =>
      if s.allowPressPos = false then { s with allowPressPos := false }
      else if posMatch then
        { s with tally := { s.tally with posHits := s.tally.posHits + 1 }, allowPressPos := false }
      else
        { s with tally := { s.tally with posFalse := s.tally.posFalse + 1 }, allowPressPos := false }
    | Channel.snd =>
      if s.allowPressSnd = false then { s with allowPressSnd := false }
      else if sndMatch then
        { s with tally := { s.tally with sndHits := s.tally.sndHits + 1 }, allowPressSnd := false }
      else
        { s with tally := { s.tally with sndFalse := s.tally.sndFalse + 1 }, allowPressSnd := false }

/-- The body of the miss setTimeout of the source: recompute both matches from the
captured stream, captured n and captured next, and count a miss on each
channel whose captured allow flag is still true. -/
def missTallyUpdate (c : MissCapture) (t : Tally) : Tally :=
  let posMatch := posMatchAt c.stream ((c.indexForMiss : Int) - (c.n : Int)) c.next
  let sndMatch := sndMatchAt c.stream ((c.indexForMiss : Int) - (c.n : Int)) c.next
  let t1 := if posMatch && c.allowPressPos then { t with posMisses := t.posMisses + 1 } else t
  if sndMatch && c.allowPressSnd then { t1 with sndMisses := t1.sndMisses + 1 } else t1

/-- Firing of the outstanding miss timeout, when there is one. -/
def missFire (s : EngineState) : EngineState :=
  match s.pendingMiss with
  | none => s
  | some c => { s with tally := missTallyUpdate c s.tally, pendingMiss := none }

/-- The useInterval tick callback of the source.  When the block is over it
computes the combined accuracy and schedules resetBlock with the adapted n;
otherwise it appends the generated stimulus, shows it, re-opens both
channels and schedules the miss timeout with the captured data. -/
def tick (next : Stim) (s : EngineState) : EngineState :=
  if s.running = false then s
  else if s.blockLen ≤ s.trialIdx then
    let posAtt := s.tally.posHits + s.tally.posMisses
    let sndAtt := s.tally.sndHits + s.tally.sndMisses
    let combAtt := posAtt + sndAtt
    let combHits := s.tally.posHits + s.tally.sndHits
    let acc : ℚ := if combAtt ≠ 0 then (combHits : ℚ) / (combAtt : ℚ) else 0
    let nextN := if (0.75 : ℚ) ≤ acc then s.n + 1
      else if acc < (0.55 : ℚ) then Nat.max 1 (s.n - 1) else s.n
    { s with pendingReset := some nextN }
  else
    { s with stream := s.stream ++ [next], current := some next, trialIdx := s.trialIdx + 1,
             allowPressPos := true, allowPressSnd := true,
             pendingMiss := some ⟨s.stream.length, next, s.stream, s.n,
                                  s.allowPressPos, s.allowPressSnd⟩ }

/-- Firing of the outstanding block reset timeout, when there is one. -/
def resetFire (s : EngineState) : EngineState :=
  match s.pendingReset with
  | none => s
  | some v => { resetBlockE (some v) s with pendingReset := none }

/-- The Initial N settings input of the source, clamped below by 1. -/
def setNE (v : Nat) (s : EngineState) : EngineState := { s with n := Nat.max 1 v }

/-- The Speed settings input of the source, clamped below by 300. -/
def setSpeedE (v : Nat) (s : EngineState) : EngineState := { s with speedMs := Nat.max 300 v }

/-- The Block length settings input of the source, clamped below by 8. -/
def setBlockLenE (v : Nat) (s : EngineState) : EngineState := { s with blockLen := Nat.max 8 v }

/-- The events that can reach the state of the component. -/
inductive Event where
  | startEv
  | stopEv
  | tickEv (next : Stim)
  | pressEv (kind : Channel)
  | missEv
  | resetEv
  | resetBtnEv
  | setNEv (v : Nat)
  | setSpeedEv (v : Nat)
  | setBlockLenEv (v : Nat)
deriving DecidableEq

/-- Dispatch of one event. -/
def stepE (e : Event) (s : EngineState) : EngineState :=
  match e with
  | Event.startEv => startE s
  | Event.stopEv => stopE s
  | Event.tickEv next => tick next s
  | Event.pressEv kind => handlePress kind s
  | Event.missEv => missFire s
  | Event.resetEv => resetFire s
  | Event.resetBtnEv => resetBlockE none s
  | Event.setNEv v => setNE v s
  | Event.setSpeedEv v => setSpeedE v s
  | Event.setBlockLenEv v => setBlockLenE v s

/-- Run a list of events from a state. -/
def runE (s : EngineState) (es : List Event) : EngineState :=
  es.foldl (fun a e => stepE e a) s

/-- posAttempts of the render section of the source. -/
def posAttempts (t : Tally) : Nat := t.posHits + t.posMisses

/-- sndAttempts of the render section of the source. -/
def sndAttempts (t : Tally) : Nat := t.sndHits + t.sndMisses

/-- posAcc of the render section of the source, over the rationals. -/
def posAcc (t : Tally) : ℚ :=
  if posAttempts t ≠ 0 then (t.posHits : ℚ) / (posAttempts t : ℚ) else 0

/-- sndAcc of the render section of the source, over the rationals. -/
def sndAcc (t : Tally) : ℚ :=
  if sndAttempts t ≠ 0 then (t.sndHits : ℚ) / (sndAttempts t : ℚ) else 0

/-- combinedAttempts of the render section of the source. -/
def combinedAttempts (t : Tally) : Nat := posAttempts t + sndAttempts t

/-- combinedHits of the render section of the source. -/
def combinedHits (t : Tally) : Nat := t.posHits + t.sndHits

/-- combinedAcc of the render section of the source, over the rationals. -/
def combinedAcc (t : Tally) : ℚ :=
  if combinedAttempts t ≠ 0 then (combinedHits t : ℚ) / (combinedAttempts t : ℚ) else 0

/-- Written from the words of the specification: per-channel accuracy is hits over
hits plus misses, and 0 when that denominator is 0.  Position channel. -/
def specPosAccuracy (t : Tally) : ℚ :=
  if (t.posHits : ℚ) + (t.posMisses : ℚ) = 0 then 0
  else (t.posHits : ℚ) / ((t.posHits : ℚ) + (t.posMisses : ℚ))

/-- Written from the words of the specification: per-channel accuracy is hits over
hits plus misses, and 0 when that denominator is 0.  Sound channel. -/
def specSndAccuracy (t : Tally) : ℚ :=
  if (t.sndHits : ℚ) + (t.sndMisses : ℚ) = 0 then 0
  else (t.sndHits : ℚ) / ((t.sndHits : ℚ) + (t.sndMisses : ℚ))

/-- Written from the words of the specification: combined accuracy is the sum of
hits over the sum of hits and misses of both channels, and 0 when that
denominator is 0. -/
def specCombinedAccuracy (t : Tally) : ℚ :=
  if (t.posHits : ℚ) + (t.posMisses : ℚ) + (t.sndHits : ℚ) + (t.sndMisses : ℚ) = 0 then 0
  else ((t.posHits : ℚ) + (t.sndHits : ℚ)) /
    ((t.posHits : ℚ) + (t.posMisses : ℚ) + (t.sndHits : ℚ) + (t.sndMisses : ℚ))

/-- Run a whole sequence of trials, each trial being one tick followed by the
firing of its miss timeout; this is the realizable interleaving of a block in
which the user presses nothing, since the miss timeout of each trial fires 80
milliseconds before the next tick. -/
def runTrials : EngineState → List Stim → EngineState
  | s, [] => s
  | s, st :: rest => runTrials (missFire (tick st s)) rest

/-- The misses one channel accumulates over a sequence of trials appended on
top of a base stream, when the captured allow flag of every trial is true:
one miss for every trial whose stimulus matches the one n back. -/
def blockMisses (eqf : Stim → Stim → Bool) : List Stim → Nat → List Stim → Nat
  | _, _, [] => 0
  | base, n, st :: rest =>
    (if matchAt eqf base ((base.length : Int) - (n : Int)) st then 1 else 0)
      + blockMisses eqf (base ++ [st]) n rest

/-- Number of trial indices of the stream whose position matches n back. -/
def posMatchTrialCount (stream : List Stim) (n : Nat) : Nat :=
  (List.range stream.length).countP (fun (i : Nat) => (isMatch stream (i : Int) n).1)

/-- Number of trial indices of the stream whose letter matches n back. -/
def sndMatchTrialCount (stream : List Stim) (n : Nat) : Nat :=
  (List.range stream.length).countP (fun (i : Nat) => (isMatch stream (i : Int) n).2)

/-- Number of trial indices i of the stream with n or more earlier trials but
no position match: the correctly withheld responses of the position
channel. -/
def posNonMatchEligibleCount (stream : List Stim) (n : Nat) : Nat :=
  (List.range stream.length).countP
    (fun (i : Nat) => decide (n ≤ i) && !(isMatch stream (i : Int) n).1)

/-- Number of trial indices i of the stream with n or more earlier trials but
no letter match: the correctly withheld responses of the sound channel. -/
def sndNonMatchEligibleCount (stream : List Stim) (n : Nat) : Nat :=
  (List.range stream.length).countP
    (fun (i : Nat) => decide (n ≤ i) && !(isMatch stream (i : Int) n).2)

/-- The stimulus at grid cell 0 with letter A, used by the concrete runs. -/
def stA : Stim := ⟨0, "A"⟩

/-- Concrete run for claim C1: n is 1 and trial 0 plays stimulus stA; its miss
timeout fires without effect because trial 0 has no trial 1 back. -/
def c1Pre : EngineState :=
  runE initState [Event.setNEv 1, Event.startEv, Event.tickEv stA, Event.missEv]

/-- Concrete run for claim C1, continued: trial 1 repeats stA (a true match on
both channels), the user presses position during the response window, then
the miss timeout of trial 1 fires. -/
def c1Post : EngineState :=
  runE c1Pre [Event.tickEv stA, Event.pressEv Channel.pos, Event.missEv]

/-- Concrete run for claim C3: two trials of stA with n 1, stop is pressed
right after the second tick, while the miss timeout of trial 1 is still
outstanding. -/
def c3Stopped : EngineState :=
  runE initState [Event.setNEv 1, Event.startEv, Event.tickEv stA, Event.missEv,
    Event.tickEv stA, Event.stopEv]

/-- Concrete run for claim C3, continued: the outstanding miss timeout fires
after stop. -/
def c3Final : EngineState := missFire c3Stopped

/-- Concrete run for claim C6: as in C3 but start is pressed again right after
stop, before the leaked miss timeout of the pre-stop trial fires. -/
def c6Restarted : EngineState :=
  runE initState [Event.setNEv 1, Event.startEv, Event.tickEv stA, Event.missEv,
    Event.tickEv stA, Event.stopEv, Event.startEv]

/-- Concrete run for claim C6, continued: the leaked miss timeout fires into
the fresh block. -/
def c6Final : EngineState := missFire c6Restarted

/-- Concrete run for claim C7: two trials of stA with n 1; the miss timeout of
trial 1, the response window expiry, has already fired. -/
def c7Expired : EngineState :=
  runE initState [Event.setNEv 1, Event.startEv, Event.tickEv stA, Event.missEv,
    Event.tickEv stA, Event.missEv]

/-- Concrete run for claim C7, continued: a position press arriving after the
window expiry of trial 1 but before the next tick. -/
def c7Final : EngineState := handlePress Channel.pos c7Expired

/-- A state with a current stimulus whose position channel has already been
answered, used to instantiate the amended claim C7. -/
def c7Answered : EngineState :=
  { initState with current := some stA, stream := [stA], allowPressPos := false }

/-- The eight pairwise distinct stimuli of the concrete block for claim C8:
no position or letter ever repeats, so no trial matches at any n of at
least 1. -/
def c8Stims : List Stim :=
  [⟨0, "A"⟩, ⟨1, "E"⟩, ⟨2, "I"⟩, ⟨3, "O"⟩, ⟨4, "U"⟩, ⟨5, "B"⟩, ⟨6, "K"⟩, ⟨7, "M"⟩]

/-- Concrete completed block for claim C8: n 1, block length 8, the eight
distinct stimuli, no user response; every response window has closed. -/
def c8Final : EngineState :=
  runTrials (runE initState [Event.setNEv 1, Event.setBlockLenEv 8, Event.startEv]) c8Stims

/-- A block-end state for the claim C2 witness: 20 trials done, 8 and 2
position hits and misses, 7 and 3 sound hits and misses, accuracy 15 of
20. -/
def c2State : EngineState :=
  { initState with running := true, trialIdx := 20, tally := ⟨8, 2, 0, 7, 3, 0⟩ }

lemma getI_natCast (l : List Stim) (i : Nat) : getI l (i : Int) = l[i]? := by
  unfold getI
  rw [if_pos (by omega : (0 : Int) ≤ (i : Int))]
  have h : ((i : Int)).toNat = i := by omega
  rw [h]

lemma matchAt_neg (eqf : Stim → Stim → Bool) (stream : List Stim) (cur : Stim)
    (prevIdx : Int) (h : prevIdx < 0) : matchAt eqf stream prevIdx cur = false := by
  unfold matchAt
  rw [decide_eq_false (by omega), Bool.false_and]

lemma posAcc_eq_spec (t : Tally) : posAcc t = specPosAccuracy t := by
  unfold posAcc specPosAccuracy posAttempts
  have hc : ((t.posHits + t.posMisses : Nat) : ℚ) = (t.posHits : ℚ) + (t.posMisses : ℚ) := by
    push_cast
    ring
  by_cases h : t.posHits + t.posMisses = 0
  · rw [if_neg (by simp [h]), if_pos (by rw [← hc, h]; norm_num)]
  · rw [if_pos h, if_neg (by rw [← hc]; exact_mod_cast h), hc]

lemma sndAcc_eq_spec (t : Tally) : sndAcc t = specSndAccuracy t := by
  unfold sndAcc specSndAccuracy sndAttempts
  have hc : ((t.sndHits + t.sndMisses : Nat) : ℚ) = (t.sndHits : ℚ) + (t.sndMisses : ℚ) := by
    push_cast
    ring
  by_cases h : t.sndHits + t.sndMisses = 0
  · rw [if_neg (by simp [h]), if_pos (by rw [← hc, h]; norm_num)]
  · rw [if_pos h, if_neg (by rw [← hc]; exact_mod_cast h), hc]

lemma combinedAcc_eq_spec (t : Tally) : combinedAcc t = specCombinedAccuracy t := by
  unfold combinedAcc specCombinedAccuracy combinedAttempts combinedHits posAttempts sndAttempts
  have hd : ((t.posHits + t.posMisses + (t.sndHits + t.sndMisses) : Nat) : ℚ)
      = (t.posHits : ℚ) + (t.posMisses : ℚ) + (t.sndHits : ℚ) + (t.sndMisses : ℚ) := by
    push_cast
    ring
  have hh : ((t.posHits + t.sndHits : Nat) : ℚ) = (t.posHits : ℚ) + (t.sndHits : ℚ) := by
    push_cast
    ring
  by_cases h : t.posHits + t.posMisses + (t.sndHits + t.sndMisses) = 0
  · rw [if_neg (by simp [h]), if_pos (by rw [← hd, h]; norm_num)]
  · rw [if_pos h, if_neg (by rw [← hd]; exact_mod_cast h), hd, hh]

lemma tick_blockEnd (st : Stim) (s : EngineState)
    (hr : s.running = true) (hb : s.blockLen ≤ s.trialIdx) :
    tick st s = { s with pendingReset := some (
      if (0.75 : ℚ) ≤ combinedAcc s.tally then s.n + 1
      else if combinedAcc s.tally < (0.55 : ℚ) then Nat.max 1 (s.n - 1) else s.n) } := by
  unfold tick
  rw [if_neg (by simp [hr]), if_pos hb]
  rfl

lemma resetFire_n (s : EngineState) (v : Nat) (h : s.pendingReset = some v) :
    (resetFire s).n = Nat.max 1 v := by
  unfold resetFire
  rw [h]
  rfl

/-- C2: when the trial counter has reached the block length, the tick
schedules the block reset, and once that reset fires the new n follows the
fixed thresholds on the combined accuracy: at least 0.75 gives n plus 1,
below 0.55 gives the maximum of 1 and n minus 1, otherwise n is unchanged;
and the new n is at least 1 whatever the accuracy was. -/
theorem c2_difficulty_rule (s : EngineState) (st : Stim)
    (hr : s.running = true) (hb : s.blockLen ≤ s.trialIdx) (hn : 1 ≤ s.n) :
    ((0.75 : ℚ) ≤ specCombinedAccuracy s.tally →
      (resetFire (tick st s)).n = s.n + 1) ∧
    (specCombinedAccuracy s.tally < (0.55 : ℚ) →
      (resetFire (tick st s)).n = Nat.max 1 (s.n - 1)) ∧
    ((0.55 : ℚ) ≤ specCombinedAccuracy s.tally → specCombinedAccuracy s.tally < (0.75 : ℚ) →
      (resetFire (tick st s)).n = s.n) ∧
    1 ≤ (resetFire (tick st s)).n := by
  rw [tick_blockEnd st s hr hb]
  rw [resetFire_n _ _ rfl, combinedAcc_eq_spec]
  refine ⟨fun h1 => ?_, fun h2 => ?_, fun h3 h4 => ?_, ?_⟩
  · rw [if_pos h1]
    exact Nat.max_eq_right (by omega)
  · rw [if_neg (by intro hc; linarith), if_pos h2]
    exact Nat.max_eq_right (Nat.le_max_left 1 (s.n - 1))
  · rw [if_neg (by linarith), if_neg (by linarith)]
    exact Nat.max_eq_right hn
  · exact Nat.le_max_left 1 _

/-- C2 witness: at the concrete block-end state with 8 plus 7 hits out of 20
attempts, combined accuracy exactly 0.75, a block running at n equal 2
continues with n equal 3. -/
theorem c2_difficulty_rule_witness : (resetFire (tick stA c2State)).n = 3 := by
  have h := c2_difficulty_rule c2State stA rfl (by decide) (by decide)
  exact h.1 (by norm_num [specCombinedAccuracy, c2State, initState])

/-- C4: the match detector on a history, trial index i and offset n reports
both channels false when i is less than n, and otherwise reports a position
match exactly when the positions at i and i minus n agree and a letter match
exactly when the letters agree, the two channels independent of each
other. -/
theorem c4_match_detector (history : List Stim) (i n : Nat) (hi : i < history.length) :
    (i < n → isMatch history (i : Int) n = (false, false)) ∧
    (n ≤ i → ∃ a b, history[i]? = some a ∧ history[i - n]? = some b ∧
      ((isMatch history (i : Int) n).1 = true ↔ a.pos = b.pos) ∧
      ((isMatch history (i : Int) n).2 = true ↔ a.letter = b.letter)) := by
  obtain ⟨a, ha⟩ : ∃ a, history[i]? = some a :=
    ⟨history[i], List.getElem?_eq_getElem hi⟩
  have hdet : ∀ eqf, detect eqf history (i : Int) n
      = matchAt eqf history ((i : Int) - (n : Int)) a := by
    intro eqf
    unfold detect
    rw [getI_natCast, ha]
  constructor
  · intro hlt
    unfold isMatch
    rw [hdet, hdet, matchAt_neg _ _ _ _ (by omega), matchAt_neg _ _ _ _ (by omega)]
  · intro hle
    have hb : i - n < history.length := by omega
    obtain ⟨b, hbe⟩ : ∃ b, history[i - n]? = some b :=
      ⟨history[i - n], List.getElem?_eq_getElem hb⟩
    have hmat : ∀ eqf, matchAt eqf history ((i : Int) - (n : Int)) a = eqf b a := by
      intro eqf
      unfold matchAt
      rw [decide_eq_true (by omega : (0 : Int) ≤ (i : Int) - (n : Int)), Bool.true_and]
      have hco : ((i : Int) - (n : Int)) = ((i - n : Nat) : Int) := by omega
      rw [hco, getI_natCast, hbe]
    have hpair : isMatch history (i : Int) n = (posEqF b a, sndEqF b a) := by
      unfold isMatch
      rw [hdet, hdet, hmat, hmat]
    refine ⟨a, b, ha, hbe, ?_, ?_⟩
    · rw [hpair]
      simp only [posEqF, beq_iff_eq]
      exact eq_comm
    · rw [hpair]
      simp only [sndEqF, beq_iff_eq]
      exact eq_comm

/-- C4 witness: in the two-entry history with equal positions and different
letters, trial 1 at offset 1 is a position match and not a letter match. -/
theorem c4_match_detector_witness :
    (∃ a b, [Stim.mk 0 (String.mk ['A']), Stim.mk 0 (String.mk ['B'])][1]? = some a ∧
      [Stim.mk 0 (String.mk ['A']), Stim.mk 0 (String.mk ['B'])][1 - 1]? = some b ∧
      ((isMatch [Stim.mk 0 (String.mk ['A']), Stim.mk 0 (String.mk ['B'])] (1 : Int) 1).1 = true
        ↔ a.pos = b.pos) ∧
      ((isMatch [Stim.mk 0 (String.mk ['A']), Stim.mk 0 (String.mk ['B'])] (1 : Int) 1).2 = true
        ↔ a.letter = b.letter)) ∧
    isMatch [Stim.mk 0 (String.mk ['A']), Stim.mk 0 (String.mk ['B'])] (1 : Int) 1
      = (true, false) :=
  ⟨(c4_match_detector _ 1 1 (by decide)).2 (by decide), by decide⟩

/-- C5: the per-channel accuracies of the source equal hits over hits plus
misses with value 0 at denominator 0, the combined accuracy equals the sum of
hits over the sum of hits and misses of both channels with value 0 at
denominator 0, and none of the three depends on the false alarm counters. -/
theorem c5_accuracy_formulas (t : Tally) (pf sf : Nat) :
    posAcc t = specPosAccuracy t ∧
    sndAcc t = specSndAccuracy t ∧
    combinedAcc t = specCombinedAccuracy t ∧
    posAcc { t with posFalse := pf, sndFalse := sf } = posAcc t ∧
    sndAcc { t with posFalse := pf, sndFalse := sf } = sndAcc t ∧
    combinedAcc { t with posFalse := pf, sndFalse := sf } = combinedAcc t :=
  ⟨posAcc_eq_spec t, sndAcc_eq_spec t, combinedAcc_eq_spec t, rfl, rfl, rfl⟩

/-- C9: resetBlock with no argument zeroes the trial index, clears stream and
current stimulus, zeroes the tally, re-opens both channels, and leaves n,
speed, block length, the audio settings and the run flag untouched; with a
numeric argument it additionally sets n to the maximum of 1 and that
argument, still leaving the other configuration untouched. -/
theorem c9_resetBlock_frame (s : EngineState) (k : Nat) :
    ((resetBlockE none s).trialIdx = 0 ∧
     (resetBlockE none s).stream = [] ∧
     (resetBlockE none s).current = none ∧
     (resetBlockE none s).tally = emptyTally ∧
     (resetBlockE none s).allowPressPos = true ∧
     (resetBlockE none s).allowPressSnd = true ∧
     (resetBlockE none s).n = s.n ∧
     (resetBlockE none s).speedMs = s.speedMs ∧
     (resetBlockE none s).blockLen = s.blockLen ∧
     (resetBlockE none s).running = s.running ∧
     (resetBlockE none s).audioEnabled = s.audioEnabled ∧
     (resetBlockE none s).useSpeech = s.useSpeech ∧
     (resetBlockE none s).voice = s.voice ∧
     (resetBlockE none s).lang = s.lang) ∧
    ((resetBlockE (some k) s).n = Nat.max 1 k ∧
     (resetBlockE (some k) s).trialIdx = 0 ∧
     (resetBlockE (some k) s).stream = [] ∧
     (resetBlockE (some k) s).current = none ∧
     (resetBlockE (some k) s).tally = emptyTally ∧
     (resetBlockE (some k) s).allowPressPos = true ∧
     (resetBlockE (some k) s).allowPressSnd = true ∧
     (resetBlockE (some k) s).speedMs = s.speedMs ∧
     (resetBlockE (some k) s).blockLen = s.blockLen ∧
     (resetBlockE (some k) s).running = s.running ∧
     (resetBlockE (some k) s).audioEnabled = s.audioEnabled ∧
     (resetBlockE (some k) s).useSpeech = s.useSpeech ∧
     (resetBlockE (some k) s).voice = s.voice ∧
     (resetBlockE (some k) s).lang = s.lang) := by
  and_intros <;> rfl

/-- C10: a press on either channel while no current stimulus exists, as before
the first tick of a run or after stop has cleared it, changes nothing at all
about the engine state. -/
theorem c10_press_without_current (s : EngineState) (k : Channel)
    (h : s.current = none) : handlePress k s = s := by
  unfold handlePress
  rw [h]

/-- C10 witness: in the initial state, which has no current stimulus, a
position press is the identity. -/
theorem c10_press_without_current_witness :
    initState.current = none ∧ handlePress Channel.pos initState = initState :=
  ⟨rfl, c10_press_without_current initState Channel.pos rfl⟩

/-- C7 counterexample: in the concrete two-trial run, after the response
window expiry of trial 1 has fired (the pending miss is consumed and a miss
is recorded), a position press arriving before the next tick is not dropped:
it is scored as a hit against the expired trial, so the Tally changes. -/
theorem c7_late_press_scored :
    c7Expired.pendingMiss = none ∧
    c7Expired.tally.posHits = 0 ∧
    c7Expired.tally.posMisses = 1 ∧
    c7Final.tally.posHits = 1 := by
  decide

/-- C7 amended: a press on a channel that was already answered during the
current trial leaves the Tally unchanged; presses arriving after the window
expiry but before the next tick are, however, still scored. -/
theorem c7_answered_channel_press_noop (s : EngineState) :
    (s.allowPressPos = false → (handlePress Channel.pos s).tally = s.tally) ∧
    (s.allowPressSnd = false → (handlePress Channel.snd s).tally = s.tally) := by
  cases hc : s.current with
  | none =>
    unfold handlePress
    rw [hc]
    exact ⟨fun _ => rfl, fun _ => rfl⟩
  | some cur =>
    constructor
    · intro h
      unfold handlePress
      rw [hc]
      simp only [h, if_pos]
    · intro h
      unfold handlePress
      rw [hc]
      simp only [h, if_pos]

/-- C7 amended witness: in a concrete state whose position channel is already
answered, a position press leaves the Tally unchanged. -/
theorem c7_answered_channel_press_noop_witness :
    c7Answered.allowPressPos = false ∧
    (handlePress Channel.pos c7Answered).tally = c7Answered.tally :=
  ⟨rfl, (c7_answered_channel_press_noop c7Answered).1 rfl⟩

/-- C1: in the concrete run, trial 0 records nothing, and trial 1, a true
position match answered by a position press during its window, records both a
position hit from the press and a position miss from the window expiry,
because the expiry closure tests the allow flag captured at trial start: two
tally events for one channel of one trial. -/
theorem c1_hit_and_miss_same_trial :
    c1Pre.tally = emptyTally ∧
    c1Post.trialIdx = 2 ∧
    c1Post.tally.posHits = 1 ∧
    c1Post.tally.posMisses = 1 := by
  decide

/-- C3: in the concrete run, stop is pressed while a trial is in flight; the
state is stopped with an empty tally, yet the outstanding window expiry
timeout still fires and records a miss on each channel for the cancelled
trial, mutating the Tally after stop. -/
theorem c3_tally_mutated_after_stop :
    c3Stopped.running = false ∧
    c3Stopped.current = none ∧
    c3Stopped.tally = emptyTally ∧
    c3Final.tally.posMisses = 1 ∧
    c3Final.tally.sndMisses = 1 := by
  decide

/-- C6: in the concrete run, the expiry timeout leaked from the trial that was
in flight at stop fires inside the next block started by a fresh start: with
zero trials of the new block closed (trial index 0, empty stream), the tally
already holds one position miss, so position hits plus misses exceed the
number of closed trials. -/
theorem c6_invariant_broken_by_leaked_timer :
    c6Final.running = true ∧
    c6Final.trialIdx = 0 ∧
    c6Final.stream = [] ∧
    c6Final.tally.posHits + c6Final.tally.posMisses = 1 := by
  decide

/-- C8 counterexample: a concrete completed block of length 8 at n equal 1
with eight pairwise distinct stimuli and no responses; position hits plus
position misses plus the single trial with index below n is 1, not the block
length 8, and likewise for sound. -/
theorem c8_block_sum_counterexample :
    c8Final.blockLen = 8 ∧
    c8Final.trialIdx = 8 ∧
    c8Final.n = 1 ∧
    c8Final.tally.posHits = 0 ∧
    c8Final.tally.posMisses = 0 ∧
    c8Final.tally.sndHits = 0 ∧
    c8Final.tally.sndMisses = 0 ∧
    ¬(c8Final.tally.posHits + c8Final.tally.posMisses
        + min c8Final.n c8Final.blockLen = c8Final.blockLen) ∧
    ¬(c8Final.tally.sndHits + c8Final.tally.sndMisses
        + min c8Final.n c8Final.blockLen = c8Final.blockLen) := by
  decide

lemma tick_trial (st : Stim) (s : EngineState) (hr : s.running = true)
    (hlt : s.trialIdx < s.blockLen) :
    tick st s =
      { s with stream := s.stream ++ [st], current := some st,
               trialIdx := s.trialIdx + 1, allowPressPos := true, allowPressSnd := true,
               pendingMiss := some ⟨s.stream.length, st, s.stream, s.n,
                                    s.allowPressPos, s.allowPressSnd⟩ } := by
  unfold tick
  rw [if_neg (by simp [hr]), if_neg (by omega)]

lemma missFire_eq (s : EngineState) (c : MissCapture) (h : s.pendingMiss = some c) :
    missFire s = { s with tally := missTallyUpdate c s.tally, pendingMiss := none } := by
  unfold missFire
  rw [h]

lemma missTallyUpdate_flags_true (len : Nat) (st : Stim) (base : List Stim)
    (n : Nat) (t : Tally) :
    missTallyUpdate ⟨len, st, base, n, true, true⟩ t =
      { t with
        posMisses := t.posMisses
          + (if matchAt posEqF base ((len : Int) - (n : Int)) st then 1 else 0),
        sndMisses := t.sndMisses
          + (if matchAt sndEqF base ((len : Int) - (n : Int)) st then 1 else 0) } := by
  unfold missTallyUpdate posMatchAt sndMatchAt
  cases hp : matchAt posEqF base ((len : Int) - (n : Int)) st <;>
    cases hq : matchAt sndEqF base ((len : Int) - (n : Int)) st <;>
      simp [hp, hq]

lemma runTrials_spec (stims : List Stim) : ∀ (s : EngineState),
    s.running = true → s.allowPressPos = true → s.allowPressSnd = true →
    s.trialIdx + stims.length ≤ s.blockLen →
    (runTrials s stims).running = true ∧
    (runTrials s stims).allowPressPos = true ∧
    (runTrials s stims).allowPressSnd = true ∧
    (runTrials s stims).n = s.n ∧
    (runTrials s stims).blockLen = s.blockLen ∧
    (runTrials s stims).stream = s.stream ++ stims ∧
    (runTrials s stims).trialIdx = s.trialIdx + stims.length ∧
    (runTrials s stims).tally.posHits = s.tally.posHits ∧
    (runTrials s stims).tally.posFalse = s.tally.posFalse ∧
    (runTrials s stims).tally.posMisses
      = s.tally.posMisses + blockMisses posEqF s.stream s.n stims ∧
    (runTrials s stims).tally.sndHits = s.tally.sndHits ∧
    (runTrials s stims).tally.sndFalse = s.tally.sndFalse ∧
    (runTrials s stims).tally.sndMisses
      = s.tally.sndMisses + blockMisses sndEqF s.stream s.n stims := by
  induction stims with
  | nil =>
    intro s h1 h2 h3 _
    simp only [runTrials, blockMisses]
    simp [h1, h2, h3]
  | cons st rest ih =>
    intro s h1 h2 h3 hlen
    rw [List.length_cons] at hlen
    have hstep : missFire (tick st s) =
        { s with stream := s.stream ++ [st],
                 current := some st, trialIdx := s.trialIdx + 1,
                 allowPressPos := true, allowPressSnd := true, pendingMiss := none,
                 tally :=
                   { s.tally with
                     posMisses := s.tally.posMisses
                       + (if matchAt posEqF s.stream ((s.stream.length : Int) - (s.n : Int)) st
                          then 1 else 0),
                     sndMisses := s.tally.sndMisses
                       + (if matchAt sndEqF s.stream ((s.stream.length : Int) - (s.n : Int)) st
                          then 1 else 0) } } := by
      rw [tick_trial st s h1 (by omega)]
      rw [missFire_eq _ ⟨s.stream.length, st, s.stream, s.n,
            s.allowPressPos, s.allowPressSnd⟩ rfl]
      rw [h2, h3]
      rw [missTallyUpdate_flags_true]
    obtain ⟨r1, r2, r3, r4, r5, r6, r7, r8, r9, r10, r11, r12, r13⟩ :=
      ih (missFire (tick st s))
        (by rw [hstep]; exact h1)
        (by rw [hstep])
        (by rw [hstep])
        (by rw [hstep]; dsimp only; omega)
    simp only [runTrials]
    refine ⟨r1, r2, r3, ?_, ?_, ?_, ?_, ?_, ?_, ?_, ?_, ?_, ?_⟩
    · rw [r4, hstep]
    · rw [r5, hstep]
    · rw [r6, hstep]
      simp
    · rw [r7, hstep]
      dsimp only
      simp only [List.length_cons]
      omega
    · rw [r8, hstep]
    · rw [r9, hstep]
    · rw [r10, hstep]
      simp only [blockMisses]
      omega
    · rw [r11, hstep]
    · rw [r12, hstep]
    · rw [r13, hstep]
      simp only [blockMisses]
      omega

lemma matchAt_append (eqf : Stim → Stim → Bool) (base rest : List Stim) (cur : Stim)
    (prevIdx : Int) (hlt : prevIdx < (base.length : Int)) :
    matchAt eqf (base ++ rest) prevIdx cur = matchAt eqf base prevIdx cur := by
  unfold matchAt
  by_cases h : (0 : Int) ≤ prevIdx
  · rw [decide_eq_true h]
    unfold getI
    rw [if_pos h, if_pos h]
    rw [List.getElem?_append_left (by omega : prevIdx.toNat < base.length)]
  · rw [decide_eq_false h, Bool.false_and, Bool.false_and]

lemma detect_head (eqf : Stim → Stim → Bool) (base rest : List Stim) (st : Stim)
    (n : Nat) (hn : 1 ≤ n) :
    detect eqf (base ++ st :: rest) ((base.length : Nat) : Int) n
      = matchAt eqf base ((base.length : Int) - (n : Int)) st := by
  unfold detect
  rw [getI_natCast]
  have hg : (base ++ st :: rest)[base.length]? = some st := by
    rw [List.getElem?_append_right (le_refl base.length)]
    simp
  rw [hg]
  exact matchAt_append eqf base (st :: rest) st _ (by omega)

lemma blockMisses_eq_count (eqf : Stim → Stim → Bool) (n : Nat) (hn : 1 ≤ n) :
    ∀ (rest base : List Stim),
      blockMisses eqf base n rest
        = (List.range rest.length).countP
            (fun j => detect eqf (base ++ rest) ((base.length + j : Nat) : Int) n) := by
  intro rest
  induction rest with
  | nil =>
    intro base
    simp [blockMisses]
  | cons st rtl ih =>
    intro base
    simp only [blockMisses]
    rw [show (st :: rtl).length = rtl.length + 1 from rfl]
    rw [List.range_succ_eq_map, List.countP_cons, List.countP_map]
    have hhead : (base.length + 0 : Nat) = base.length := by omega
    rw [hhead, detect_head eqf base rtl st n hn]
    have htail : ((fun j => detect eqf (base ++ st :: rtl) ((base.length + j : Nat) : Int) n)
          ∘ Nat.succ)
        = fun j => detect eqf ((base ++ [st]) ++ rtl)
            (((base ++ [st]).length + j : Nat) : Int) n := by
      funext j
      simp only [Function.comp_apply]
      have e1 : base ++ st :: rtl = (base ++ [st]) ++ rtl := by simp
      have e2 : base.length + Nat.succ j = (base ++ [st]).length + j := by
        simp
        omega
      rw [e1, e2]
    rw [htail, ← ih (base ++ [st])]
    omega

lemma detect_imp_le (eqf : Stim → Stim → Bool) (stream : List Stim) (i n : Nat)
    (h : detect eqf stream (i : Int) n = true) : n ≤ i := by
  unfold detect at h
  cases hg : getI stream (i : Int) with
  | none =>
    rw [hg] at h
    exact absurd h (by simp)
  | some cur =>
    rw [hg] at h
    unfold matchAt at h
    rw [Bool.and_eq_true] at h
    have h1 : (0 : Int) ≤ (i : Int) - (n : Int) := of_decide_eq_true h.1
    omega

lemma rangeCountP_partition (p : Nat → Bool) (n : Nat)
    (hp : ∀ i, p i = true → n ≤ i) (L : Nat) :
    (List.range L).countP p + min n L
      + (List.range L).countP (fun i => decide (n ≤ i) && !p i) = L := by
  induction L with
  | zero => simp
  | succ L ih =>
    rw [List.range_succ, List.countP_append, List.countP_append]
    have hsingle : ∀ q : Nat → Bool, List.countP q [L] = if q L then 1 else 0 := by
      intro q
      simp [List.countP_cons]
    rw [hsingle, hsingle]
    by_cases hL : n ≤ L
    · have hmin : min n (L + 1) = min n L := by
        rw [min_def, min_def, if_pos (by omega), if_pos hL]
      rw [hmin]
      cases hpL : p L
      · rw [if_neg (by simp [hpL]), if_pos (by simp [hpL, hL])]
        omega
      · rw [if_pos (by simp [hpL]), if_neg (by simp [hpL])]
        omega
    · have hpL : p L = false := by
        cases hpc : p L
        · rfl
        · exact absurd (hp L hpc) hL
      have hmin : min n (L + 1) = min n L + 1 := by
        rw [min_def, min_def, if_neg (show ¬ n ≤ L by omega)]
        by_cases h2 : n ≤ L + 1
        · rw [if_pos h2]
          omega
        · rw [if_neg h2]
      rw [hmin, if_neg (by simp [hpL]), if_neg (by simp [hL])]
      omega

/-- C8 amended: for a block of trialsPerBlock trials run to completion with no
user response and no stop, position hits are 0, position misses equal the
number of trials whose position matches n back, and hits plus misses plus the
trials with index below n plus the eligible trials without a position match
account for exactly trialsPerBlock; likewise for sound.  The unconditional
equality of the original claim fails because eligible trials without a true
match and without a response produce no tally event at all. -/
theorem c8_no_press_block_accounting (s : EngineState) (stims : List Stim)
    (hn : 1 ≤ s.n) (hlen : stims.length = s.blockLen) :
    (runTrials (startE s) stims).tally.posHits = 0 ∧
    (runTrials (startE s) stims).tally.posMisses = posMatchTrialCount stims s.n ∧
    (runTrials (startE s) stims).tally.posHits + (runTrials (startE s) stims).tally.posMisses
      + min s.n s.blockLen + posNonMatchEligibleCount stims s.n = s.blockLen ∧
    (runTrials (startE s) stims).tally.sndHits = 0 ∧
    (runTrials (startE s) stims).tally.sndMisses = sndMatchTrialCount stims s.n ∧
    (runTrials (startE s) stims).tally.sndHits + (runTrials (startE s) stims).tally.sndMisses
      + min s.n s.blockLen + sndNonMatchEligibleCount stims s.n = s.blockLen := by
  obtain ⟨r1, r2, r3, r4, r5, r6, r7, r8, r9, r10, r11, r12, r13⟩ :=
    runTrials_spec stims (startE s) rfl rfl rfl
      (by dsimp only [startE, resetBlockE]; omega)
  have hbm : ∀ eqf, blockMisses eqf ([] : List Stim) s.n stims
      = (List.range stims.length).countP
          (fun (j : Nat) => detect eqf stims (j : Int) s.n) := by
    intro eqf
    rw [blockMisses_eq_count eqf s.n hn stims []]
    refine List.countP_congr ?_
    intro j _
    have e : (([] : List Stim).length + j : Nat) = j := by simp
    rw [show ([] : List Stim) ++ stims = stims from rfl, e]
  have hposm : (runTrials (startE s) stims).tally.posMisses = posMatchTrialCount stims s.n := by
    rw [r10, show (startE s).tally.posMisses = 0 from rfl,
      show (startE s).stream = ([] : List Stim) from rfl,
      show (startE s).n = s.n from rfl, Nat.zero_add, hbm posEqF]
    rfl
  have hsndm : (runTrials (startE s) stims).tally.sndMisses = sndMatchTrialCount stims s.n := by
    rw [r13, show (startE s).tally.sndMisses = 0 from rfl,
      show (startE s).stream = ([] : List Stim) from rfl,
      show (startE s).n = s.n from rfl, Nat.zero_add, hbm sndEqF]
    rfl
  have hposh : (runTrials (startE s) stims).tally.posHits = 0 := by
    rw [r8]
    rfl
  have hsndh : (runTrials (startE s) stims).tally.sndHits = 0 := by
    rw [r11]
    rfl
  refine ⟨hposh, hposm, ?_, hsndh, hsndm, ?_⟩
  · rw [hposh, hposm, Nat.zero_add, ← hlen]
    exact rangeCountP_partition (fun (i : Nat) => (isMatch stims (i : Int) s.n).1) s.n
      (fun i hi => detect_imp_le posEqF stims i s.n hi) stims.length
  · rw [hsndh, hsndm, Nat.zero_add, ← hlen]
    exact rangeCountP_partition (fun (i : Nat) => (isMatch stims (i : Int) s.n).2) s.n
      (fun i hi => detect_imp_le sndEqF stims i s.n hi) stims.length

/-- C8 amended witness: the concrete no-response block of length 8 at n equal
1 with pairwise distinct stimuli satisfies the accounting identity, with all
counts on the correct-rejection side. -/
theorem c8_no_press_block_accounting_witness :
    (runTrials (startE (setBlockLenE 8 (setNE 1 initState))) c8Stims).tally.posHits
      + (runTrials (startE (setBlockLenE 8 (setNE 1 initState))) c8Stims).tally.posMisses
      + min (setBlockLenE 8 (setNE 1 initState)).n (setBlockLenE 8 (setNE 1 initState)).blockLen
      + posNonMatchEligibleCount c8Stims (setBlockLenE 8 (setNE 1 initState)).n
      = (setBlockLenE 8 (setNE 1 initState)).blockLen :=
  (c8_no_press_block_accounting (setBlockLenE 8 (setNE 1 initState)) c8Stims
    (by decide) (by decide)).2.2.1

end DualNBack
